import Mathlib

/-!
Verification of the ts-express-generator scaffolding tool (src/main.js,
event-driven revision) against its natural-language specification.

The JavaScript program is shallowly embedded: JSON values become an
inductive `Json` type, JS object spread and property assignment become
association-list operations, the prompt-processing expressions become pure
string functions, the comment-stripping regexes become character-list
scanners, and the event-chain workflow becomes an explicit step list run
against a `failing : String → Bool` oracle describing which external
commands exit non-zero.
-/

namespace TsExpressGen

/-- A JSON value, as produced by JSON.parse: null, booleans, numbers
(modelled as integers; the program only handles integral numbers),
strings, arrays, and objects as ordered field lists. -/
inductive Json where
  | null : Json
  | bool : Bool → Json
  | num : Int → Json
  | str : String → Json
  | arr : List Json → Json
  | obj : List (String × Json) → Json

/-- First-occurrence lookup in a JS-object field list (JS property read). -/
def lookupField (fs : List (String × Json)) (k : String) : Option Json :=
  match fs with
  | [] => none
  | (k', v) :: rest => if k' = k then some v else lookupField rest k

/-- Whether a field list has a field named `k`. -/
def hasField (fs : List (String × Json)) (k : String) : Bool :=
  match fs with
  | [] => false
  | (k', _) :: rest => k' == k || hasField rest k

/-- JS property assignment `o[k] = v`: updates the field in place when the
key is present (keeping its position), appends it otherwise. -/
def setField (fs : List (String × Json)) (k : String) (v : Json) : List (String × Json) :=
  if hasField fs k then fs.map (fun kv => if kv.1 = k then (kv.1, v) else kv)
  else fs ++ [(k, v)]

/-- JS truthiness: null, false, 0 and "" are falsy; objects and arrays
are always truthy. -/
def jsFalsy : Json → Bool
  | .null => true
  | .bool b => !b
  | .num n => n == 0
  | .str s => s == ""
  | .arr _ => false
  | .obj _ => false

/-- JS `a || b` where `a` is a possibly-undefined property read
(`none` = undefined). -/
def jsOr (a : Option Json) (b : Json) : Json :=
  match a with
  | none => b
  | some v => if jsFalsy v then b else v

/-- Fields contributed by spreading a value into an object literal
(`\x7b...v\x7d`): objects contribute their fields, strings and arrays
contribute index-keyed entries, primitives contribute nothing. -/
def enumJson (i : Nat) : List Json → List (String × Json)
  | [] => []
  | v :: vs => (toString i, v) :: enumJson (i + 1) vs

/-- Index-keyed entries of a spread string. -/
def enumChars (i : Nat) : List Char → List (String × Json)
  | [] => []
  | c :: cs => (toString i, Json.str c.toString) :: enumChars (i + 1) cs

/-- JS spread of a single value inside an object literal. -/
def jsonSpreadFields : Json → List (String × Json)
  | .obj fs => fs
  | .arr xs => enumJson 0 xs
  | .str s => enumChars 0 s.data
  | _ => []

/-- JS spread of a possibly-undefined value (`none` = undefined, which
spreads to nothing). -/
def optSpreadFields : Option Json → List (String × Json)
  | none => []
  | some j => jsonSpreadFields j

/-- JS object literal `\x7b ...a, ...b \x7d`: a's keys in order with b's
values where the key collides, then b's remaining keys in b's order. -/
def spreadMerge (a b : List (String × Json)) : List (String × Json) :=
  a.map (fun kv => (kv.1, (lookupField b kv.1).getD kv.2)) ++
    b.filter (fun kv => !hasField a kv.1)

/-- The canonical compilerOptions object built by setupTsConfig
(src/main.js lines 89-101). -/
def canonicalCompilerOptions : List (String × Json) :=
  [(("module"), Json.str ("ESNext")),
   (("target"), Json.str ("ES2020")),
   (("outDir"), Json.str ("dist")),
   (("rootDir"), Json.str ("src")),
   (("strict"), Json.bool true),
   (("esModuleInterop"), Json.bool true),
   (("moduleResolution"), Json.str ("node"))]

/-- The tsconfig object shape written by setupTsConfig: the given
compilerOptions plus the fixed include/exclude arrays. -/
def mkTsconfig (co : List (String × Json)) : Json :=
  Json.obj
    [(("compilerOptions"), Json.obj co),
     (("include"), Json.arr [Json.str ("src/**/*")]),
     (("exclude"), Json.arr [Json.str ("node_modules"), Json.str ("dist")])]

/-- The canonical-defaults-only tsconfig. -/
def defaultTsconfig : Json := mkTsconfig canonicalCompilerOptions

/-- The JS expression `parsed.compilerOptions` inside the try block:
reading a property of null throws (`none`); reading a missing property of
any other value yields undefined (`some none`). -/
def getCompilerOptions : Json → Option (Option Json)
  | .null => none
  | .obj fs => some (lookupField fs ("compilerOptions"))
  | _ => some none

/-- The compilerOptions written by one run of setupTsConfig.  The
argument describes the pre-existing tsconfig.json: `none` = file absent,
`some none` = file present but JSON.parse of the stripped text threw,
`some (some parsed)` = parse succeeded with value `parsed`.  On success
the source merges `\x7b ...parsed.compilerOptions, ...tsconfig.compilerOptions \x7d`
(line 108); the property read on a parsed `null` throws and is caught. -/
def compilerOptionsAfterMerge (pre : Option (Option Json)) : List (String × Json) :=
  match pre with
  | none => canonicalCompilerOptions
  | some none => canonicalCompilerOptions
  | some (some parsed) =>
    match getCompilerOptions parsed with
    | none => canonicalCompilerOptions
    | some co => spreadMerge (optSpreadFields co) canonicalCompilerOptions

/-- Whether setupTsConfig hits its catch block and warns (parse threw, or
the property read on a parsed null threw). -/
def tsconfigWarned (pre : Option (Option Json)) : Bool :=
  match pre with
  | none => false
  | some none => true
  | some (some parsed) =>
    match getCompilerOptions parsed with
    | none => true
    | some _ => false

/-- The full tsconfig.json document written by setupTsConfig. -/
def tsconfigMerged (pre : Option (Option Json)) : Json :=
  mkTsconfig (compilerOptionsAfterMerge pre)

/-!
Embedding notes: removeJsonComments (src/main.js lines 77-84)

The source applies five textual passes in order: the regex replace of
line comments, of block comments, of a comma followed by whitespace and a
closing brace, the same for a closing bracket, and a final trim.  Each
regex pass is embedded as a left-to-right character scanner with the same
leftmost-match, no-rescan semantics as a global JS `replace`.
-/

/-- Whitespace as matched by the JS regex class in the source patterns. -/
def jsWs (c : Char) : Bool :=
  c == ' ' || c == '\t' || c == '\n' || c == '\r' || c == '\x0b' || c == '\x0c'

/-- Whether two given characters occur adjacently, in order, in the text
(leftmost occurrence is where a global regex on the pair first fires). -/
def hasPair (a b : Char) (l : List Char) : Bool :=
  match l with
  | [] => false
  | [_] => false
  | c :: c' :: cs => (c == a && c' == b) || hasPair a b (c' :: cs)

/-- Whether the text starts with whitespace followed by the closing
character (the `\s*` and closer of a trailing-comma regex). -/
def startsWsClose (close : Char) (l : List Char) : Bool :=
  match l with
  | [] => false
  | c :: cs => c == close || (jsWs c && startsWsClose close cs)

/-- Whether some comma in the text is followed by whitespace and the
closing character, i.e. the trailing-comma regex matches somewhere. -/
def hasTrailingComma (close : Char) (l : List Char) : Bool :=
  match l with
  | [] => false
  | c :: cs => (c == ',' && startsWsClose close cs) || hasTrailingComma close cs

/-- Scanner state for the line-comment pass: plain text, just after a
slash that may open `//`, or inside a line comment. -/
inductive LineState where
  | normal : LineState
  | seenSlash : LineState
  | inComment : LineState

/-- One global pass of the line-comment regex, as a character automaton:
`//` switches into comment mode; inside a comment, characters are dropped
until a line terminator (which the regex dot does not match). -/
def lineScan (st : LineState) (l : List Char) : List Char :=
  match l with
  | [] => match st with | .seenSlash => ['/'] | _ => []
  | c :: cs =>
    match st with
    | .normal => if c = '/' then lineScan .seenSlash cs else c :: lineScan .normal cs
    | .seenSlash =>
      if c = '/' then lineScan .inComment cs
      else '/' :: c :: lineScan .normal cs
    | .inComment =>
      if c = '\n' ∨ c = '\r' then c :: lineScan .normal cs else lineScan .inComment cs

/-- The `replace(line-comment regex, empty)` pass. -/
def stripLineComments (l : List Char) : List Char :=
  lineScan .normal l

/-- Scanner state for the block-comment pass: plain text, just after a
slash that may open `/*`, inside a block comment, or inside a block
comment just after a star that may close it. -/
inductive BlockState where
  | normal : BlockState
  | seenSlash : BlockState
  | inComment : BlockState
  | seenStar : BlockState

/-- One global pass of the non-greedy block-comment regex, as a character
automaton: `/*` enters comment mode only when a `*/` follows somewhere
(an unterminated `/*` never matches, so the rest of the text is kept);
inside a comment, characters are dropped through the nearest `*/`. -/
def blockScan (st : BlockState) (l : List Char) : List Char :=
  match l with
  | [] => match st with | .seenSlash => ['/'] | _ => []
  | c :: cs =>
    match st with
    | .normal => if c = '/' then blockScan .seenSlash cs else c :: blockScan .normal cs
    | .seenSlash =>
      if c = '*' then
        (if hasPair '*' '/' cs then blockScan .inComment cs else '/' :: '*' :: cs)
      else if c = '/' then '/' :: blockScan .seenSlash cs
      else '/' :: c :: blockScan .normal cs
    | .inComment =>
      if c = '*' then blockScan .seenStar cs else blockScan .inComment cs
    | .seenStar =>
      if c = '/' then blockScan .normal cs
      else if c = '*' then blockScan .seenStar cs
      else blockScan .inComment cs

/-- The `replace(block-comment regex, empty)` pass. -/
def stripBlockComments (l : List Char) : List Char :=
  blockScan .normal l

/-- One global pass of a trailing-comma regex, as a scanner.  After a
comma the run of whitespace read so far is buffered (reversed); if the
closing character arrives the comma and buffer are replaced by the closer
alone, otherwise the pending text is emitted unchanged and scanning
resumes, as a JS global replace resumes after a failed match attempt. -/
def stripCommasGo (close : Char) (pending : Option (List Char)) (l : List Char) : List Char :=
  match pending, l with
  | none, [] => []
  | some buf, [] => ',' :: buf.reverse
  | none, c :: cs =>
    if c = ',' then stripCommasGo close (some []) cs
    else c :: stripCommasGo close none cs
  | some buf, c :: cs =>
    if c = close then close :: stripCommasGo close none cs
    else if jsWs c then stripCommasGo close (some (c :: buf)) cs
    else if c = ',' then ',' :: (buf.reverse ++ stripCommasGo close (some []) cs)
    else ',' :: (buf.reverse ++ c :: stripCommasGo close none cs)

/-- The `replace(comma-whitespace-closer regex, closer)` pass. -/
def stripTrailingCommas (close : Char) (l : List Char) : List Char :=
  stripCommasGo close none l

/-- JS String.trim on a character list. -/
def jsTrim (l : List Char) : List Char :=
  ((l.dropWhile jsWs).reverse.dropWhile jsWs).reverse

/-- JS String.trim on a string. -/
def jsTrimString (s : String) : String :=
  String.mk (jsTrim s.data)

/-- Lower-casing of one character as JS toLowerCase acts on the ASCII
range (the only range the prompt comparison is sensitive to). -/
def jsCharToLower (c : Char) : Char :=
  if 'A' ≤ c ∧ c ≤ 'Z' then Char.ofNat (c.toNat + 32) else c

/-- JS String.toLowerCase. -/
def jsToLower (s : String) : String :=
  String.mk (s.data.map jsCharToLower)

/-- removeJsonComments from the source: strip line comments, strip block
comments, strip trailing commas before braces and brackets, then trim. -/
def removeJsonComments (s : String) : String :=
  String.mk (jsTrim (stripTrailingCommas ']'
    (stripTrailingCommas '\x7d'
      (stripBlockComments (stripLineComments s.data)))))

/-!
Embedding notes: Prompt processing (src/main.js lines 181-205)
-/

/-- JS `a || b` on strings: the left operand unless it is empty. -/
def jsOrStr (a b : String) : String :=
  if a == "" then b else a

/-- The port value flowing out of the port prompt: `port.trim() || 3000`
is the number 3000 when the trimmed answer is empty, otherwise the
trimmed string itself. -/
inductive PortVal where
  | num : Nat → PortVal
  | str : String → PortVal
deriving DecidableEq

/-- Template interpolation of a port value into generated text. -/
def PortVal.render : PortVal → String
  | .num n => toString n
  | .str s => s

/-- `name.trim() || "my-app"` (line 183). -/
def projectNameOf (name : String) : String :=
  jsOrStr (jsTrimString name) ("my-app")

/-- `answer.trim().toLowerCase() !== "n"` (line 191). -/
def useDefaultOf (answer : String) : Bool :=
  jsToLower (jsTrimString answer) != "n"

/-- `port.trim() || 3000` (line 201). -/
def portOf (port : String) : PortVal :=
  if jsTrimString port == "" then PortVal.num 3000 else PortVal.str (jsTrimString port)

/-- The user-supplied scaffolding inputs after prompt processing:
project name, whether npm init runs non-interactively, and the port. -/
structure ProjectParameters where
  name : String
  useDefault : Bool
  port : PortVal
deriving DecidableEq

/-- The ProjectParameters collected from the three raw prompt answers. -/
def collectParams (name answer port : String) : ProjectParameters :=
  ⟨projectNameOf name, useDefaultOf answer, portOf port⟩

/-- The npm init command chosen by initNpm (line 146). -/
def initNpmCommand (useDefault : Bool) : String :=
  if useDefault then ("npm init -y") else ("npm init")

/-!
Embedding notes: Fixed file contents
-/

/-- The src/main.ts template text before the interpolated port
(src/main.js lines 120-125). -/
def srcMainPre : String :=
  "\nimport express from \"express\";\nimport type \x7b Request, Response \x7d from \"express\";\n\nconst app = express();\nconst port = process.env.PORT || "

/-- The src/main.ts template text after the interpolated port
(src/main.js lines 125-134); the `$\x7bport\x7d` near the end is literal
text of the generated file, escaped in the source template. -/
def srcMainPost : String :=
  ";\n\napp.get(\"/\", (req: Request, res: Response) => \x7b\n    res.send(\"Hello, TypeScript + Express!\");\n\x7d);\n\napp.listen(port, () => \x7b\n    console.log(`Server running at http://localhost:$\x7bport\x7d`);\n\x7d);\n"

/-- The generated src/main.ts content for a given rendered port value. -/
def srcMainContent (port : String) : String :=
  srcMainPre ++ port ++ srcMainPost

/-- The .gitignore content written by createGitAndIgnore (lines 35-50),
after the trim applied at the write site. -/
def gitignoreContent : String :=
  "# Node.js dependencies\nnode_modules/\n\n# Build output\ndist/\n\n# Logs\nlogs/\n*.log\n\n# OS files\n.DS_Store\nThumbs.db"

/-- The nodemon.json document written by configureNodemon (lines 170-174). -/
def nodemonConfig : Json :=
  Json.obj
    [(("watch"), Json.arr [Json.str ("src")]),
     (("ext"), Json.str ("ts")),
     (("exec"), Json.str ("node --loader ts-node/esm src/main.ts"))]

/-!
Embedding notes: addPackageScripts (src/main.js lines 156-166)

The manifest read back by readJson is an arbitrary JSON value.  The
mutation sequence `pkg.scripts = pkg.scripts || \x7b\x7d` and the three
script assignments is embedded per JS semantics: property assignment on a
primitive throws a TypeError in strict (module) code, modelled as `none`;
properties assigned to an array are dropped again by JSON.stringify at the
write, so an array manifest or scripts array survives unchanged.
-/

/-- The manifest after addPackageScripts mutates it, or `none` when the
mutation throws (manifest or truthy scripts value is a primitive). -/
def addScriptsTo (pkg : Json) : Option Json :=
  match pkg with
  | .obj fs =>
    match jsOr (lookupField fs ("scripts")) (Json.obj []) with
    | .obj sfs =>
      let s1 := setField sfs ("dev") (Json.str ("nodemon"))
      let s2 := setField s1 ("build") (Json.str ("tsc"))
      let s3 := setField s2 ("start") (Json.str ("node dist/main.js"))
      some (Json.obj (setField fs ("scripts") (Json.obj s3)))
    | .arr xs => some (Json.obj (setField fs ("scripts") (Json.arr xs)))
    | _ => none
  | .arr xs => some (Json.arr xs)
  | _ => none

/-- Whether the manifest's scripts field, if present and truthy, is an
object map — the shape the spec's ManifestDocument prescribes (`scripts`
sub-map) and under which the mutation cannot throw or be dropped. -/
def scriptsMaplike (fs : List (String × Json)) : Bool :=
  match lookupField fs ("scripts") with
  | none => true
  | some (Json.obj _) => true
  | some v => jsFalsy v

/-- The pre-existing scripts map the three assignments start from: the
scripts field when it is an object, empty otherwise. -/
def origScripts (fs : List (String × Json)) : List (String × Json) :=
  match jsOr (lookupField fs ("scripts")) (Json.obj []) with
  | .obj sfs => sfs
  | _ => []

/-!
Embedding notes: The event-driven workflow (src/main.js lines 178-249)

Console and filesystem effects are recorded as a trace of actions.  The
workflow is the straight-line sequence of the handler chain
initialize-project → use-default-npm-init → setup-tsconfig →
initialize-git → install-dependencies → add-package-scripts →
configure-nodemon → finish, with every external command routed through
safeExec.  A run is parameterised by which commands fail, by the three
prompt answers, and by the parse outcomes of the two files read back
(tsconfig.json and package.json).
-/

/-- An observable effect of the program. -/
inductive Action where
  | log : String → Action
  | warn : String → Action
  | error : String → Action
  | exec : String → Bool → Action
  | mkdir : String → Action
  | chdir : String → Action
  | write : String → String → Action
  | writeJson : String → Json → Action

/-- logStep from the source. -/
def logStep (m : String) : Action := Action.log ("👉 " ++ m)

/-- logSuccess from the source. -/
def logSuccess (m : String) : Action := Action.log ("✅ " ++ m)

/-- logWarn from the source. -/
def logWarn (m : String) : Action := Action.warn ("⚠️ " ++ m)

/-- logError from the source. -/
def logError (m : String) : Action := Action.error ("❌ " ++ m)

/-- The actions of one setupTsConfig call: the catch-block warning when
parsing failed, then the write of the merged config and the success log. -/
def setupTsConfigActs (pre : Option (Option Json)) : List Action :=
  (if tsconfigWarned pre then
    [logWarn ("Failed to parse existing tsconfig.json, using default.")]
  else []) ++
  [Action.writeJson ("tsconfig.json") (tsconfigMerged pre),
   logSuccess ("tsconfig.json ready")]

/-- The actions of one createSrcMain call (lines 118-136). -/
def createSrcMainActs (port : PortVal) : List Action :=
  [Action.mkdir ("src"),
   Action.write ("src/main.ts") (srcMainContent port.render),
   logSuccess ("src/main.ts created")]

/-- readJson (lines 54-62) on a file whose state is: absent (`none`),
present but unparsable (`some none`), or parsed (`some (some j)`);
returns the warning actions and the resulting value. -/
def readJson (path : String) (pre : Option (Option Json)) : List Action × Json :=
  match pre with
  | none => ([], Json.obj [])
  | some none => ([logWarn ("Failed to parse " ++ path ++ ", using empty object.")], Json.obj [])
  | some (some j) => ([], j)

/-- A step of the straight-line workflow: plain actions, an external
command run through safeExec, or an uncaught exception that crashes the
process (exit code 1). -/
inductive Step where
  | acts : List Action → Step
  | cmd : String → Bool → Step
  | crash : Step

/-- The add-package-scripts handler as steps: log, read the manifest,
then either rewrite it with the three scripts or throw. -/
def addPackageScriptsSteps (pkgPre : Option (Option Json)) : List Step :=
  let r := readJson ("package.json") pkgPre
  [Step.acts ([logStep ("Adding scripts to package.json...")] ++ r.1)] ++
  (match addScriptsTo r.2 with
   | some pkg' =>
     [Step.acts [Action.writeJson ("package.json") pkg',
                 logSuccess ("Scripts added to package.json")]]
   | none => [Step.crash])

/-- The closing message printed by the finish handler. -/
def finishMessage (projectName : String) : String :=
  "\nRun:\n  cd " ++ projectName ++ "\n  npm run dev\n  npm run build\n  npm start\n"

/-- The whole handler chain flattened into steps, in emission order. -/
def workflowSteps (name answer port : String)
    (tsPre pkgPre : Option (Option Json)) : List Step :=
  let projectName := projectNameOf name
  let useDefault := useDefaultOf answer
  let portNumber := portOf port
  [Step.acts [Action.mkdir projectName, Action.chdir projectName,
              logSuccess ("Project directory '" ++ projectName ++ "' created and entered")],
   Step.acts [logStep ("Initializing npm...")],
   Step.cmd (initNpmCommand useDefault) false,
   Step.acts [logSuccess ("npm initialized"),
              logStep ("Setting package type to module...")],
   Step.cmd ("npm pkg set type=module") false,
   Step.acts [logSuccess ("Package type set to module")],
   Step.acts (setupTsConfigActs tsPre),
   Step.acts (createSrcMainActs portNumber),
   Step.acts [logStep ("Initializing Git...")],
   Step.cmd ("git init") true,
   Step.acts [logStep ("Creating .gitignore..."),
              Action.write (".gitignore") gitignoreContent,
              logSuccess ("Git initialized and .gitignore created")],
   Step.acts [logStep ("Installing dependencies...")],
   Step.cmd ("npm install express") false,
   Step.cmd ("npm install -D typescript ts-node nodemon @types/node @types/express") false,
   Step.acts [logSuccess ("Dependencies installed")]] ++
  addPackageScriptsSteps pkgPre ++
  [Step.acts [logStep ("Configuring nodemon.json..."),
              Action.writeJson ("nodemon.json") nodemonConfig,
              logSuccess ("nodemon.json created")],
   Step.acts [logSuccess ("Project " ++ projectName ++ " created!"),
              Action.log (finishMessage projectName),
              Action.log ("🎉 Project created successfully!")]]

/-- Run steps against an oracle telling which external commands exit
non-zero.  safeExec on a failing command logs the command and exits the
process with status 1; the finish handler exits with status 0; a crash
step exits with status 1. -/
def runSteps (failing : String → Bool) (steps : List Step) : List Action × Option Nat :=
  match steps with
  | [] => ([], some 0)
  | Step.acts as :: rest =>
    let r := runSteps failing rest
    (as ++ r.1, r.2)
  | Step.cmd c q :: rest =>
    if failing c then ([Action.exec c q, logError ("Command failed: " ++ c)], some 1)
    else
      let r := runSteps failing rest
      (Action.exec c q :: r.1, r.2)
  | Step.crash :: _ => ([], some 1)

/-- One full run of createProject: the emitted action trace and the
process exit status. -/
def runWorkflow (failing : String → Bool) (name answer port : String)
    (tsPre pkgPre : Option (Option Json)) : List Action × Option Nat :=
  runSteps failing (workflowSteps name answer port tsPre pkgPre)

/-!
Embedding notes: Association-list lemmas
-/

theorem lookupField_append (l1 l2 : List (String × Json)) (k : String) :
    lookupField (l1 ++ l2) k = (lookupField l1 k).orElse (fun _ => lookupField l2 k) := by
  induction l1 with
  | nil => simp [lookupField, Option.orElse]
  | cons kv rest ih =>
    obtain ⟨k', v⟩ := kv
    by_cases h : k' = k <;> simp [lookupField, h, ih, Option.orElse]

theorem hasField_eq_isSome (fs : List (String × Json)) (k : String) :
    hasField fs k = (lookupField fs k).isSome := by
  induction fs with
  | nil => simp [hasField, lookupField]
  | cons kv rest ih =>
    obtain ⟨k', v⟩ := kv
    by_cases h : k' = k <;> simp [hasField, lookupField, h, ih]

theorem lookupField_mapVal (g : String → Json → Json) (fs : List (String × Json)) (k : String) :
    lookupField (fs.map (fun kv => (kv.1, g kv.1 kv.2))) k = (lookupField fs k).map (g k) := by
  induction fs with
  | nil => simp [lookupField]
  | cons kv rest ih =>
    obtain ⟨k', v⟩ := kv
    by_cases h : k' = k
    · subst h; simp [lookupField]
    · simp [lookupField, h, ih]

theorem lookupField_filter_nothas (a b : List (String × Json)) (k : String) :
    lookupField (b.filter (fun kv => !hasField a kv.1)) k =
      if hasField a k then none else lookupField b k := by
  induction b with
  | nil => simp [lookupField]
  | cons kv rest ih =>
    obtain ⟨k', v⟩ := kv
    by_cases hk : k' = k
    · subst hk
      cases h : hasField a k' <;> simp [lookupField, h, ih]
    · cases h : hasField a k' <;> simp [lookupField, hk, h, ih]

/-- JS spread resolves a key to the right object's value when present
there, and to the left object's value otherwise. -/
theorem lookupField_spreadMerge (a b : List (String × Json)) (k : String) :
    lookupField (spreadMerge a b) k =
      (lookupField b k).orElse (fun _ => lookupField a k) := by
  unfold spreadMerge
  rw [lookupField_append, lookupField_mapVal (fun k' v => (lookupField b k').getD v),
    lookupField_filter_nothas, hasField_eq_isSome]
  cases ha : lookupField a k <;> cases hb : lookupField b k <;>
    simp [Option.orElse, ha, hb]

theorem lookupField_setField_self (fs : List (String × Json)) (k : String) (v : Json) :
    lookupField (setField fs k v) k = some v := by
  unfold setField
  by_cases h : hasField fs k
  · rw [if_pos h]
    have : (fs.map (fun kv => if kv.1 = k then (kv.1, v) else kv)) =
        fs.map (fun kv => (kv.1, if kv.1 = k then v else kv.2)) := by
      apply List.map_congr_left
      intro kv _
      by_cases hk : kv.1 = k <;> simp [hk]
    rw [this, lookupField_mapVal (fun k' v' => if k' = k then v else v')]
    rw [hasField_eq_isSome] at h
    cases hl : lookupField fs k
    · rw [hl] at h; simp at h
    · simp
  · rw [if_neg h, lookupField_append]
    rw [hasField_eq_isSome] at h
    cases hl : lookupField fs k
    · simp [Option.orElse, lookupField]
    · rw [hl] at h; simp at h

theorem lookupField_setField_other (fs : List (String × Json)) (k k' : String) (v : Json)
    (h : k' ≠ k) : lookupField (setField fs k v) k' = lookupField fs k' := by
  unfold setField
  by_cases hf : hasField fs k
  · rw [if_pos hf]
    have : (fs.map (fun kv => if kv.1 = k then (kv.1, v) else kv)) =
        fs.map (fun kv => (kv.1, if kv.1 = k then v else kv.2)) := by
      apply List.map_congr_left
      intro kv _
      by_cases hk : kv.1 = k <;> simp [hk]
    rw [this, lookupField_mapVal (fun k₀ v' => if k₀ = k then v else v')]
    cases hl : lookupField fs k'
    · simp
    · simp [h]
  · rw [if_neg hf, lookupField_append]
    cases hl : lookupField fs k' <;>
      simp [Option.orElse, lookupField, Ne.symm h, hl]

/-- Any canonical key resolves to the canonical value after the merge,
whatever the parsed file held. -/
theorem mergeKeepsCanonical (parsed : Json) (k : String) (v : Json)
    (hk : lookupField canonicalCompilerOptions k = some v) :
    lookupField (compilerOptionsAfterMerge (some (some parsed))) k = some v := by
  have hred : compilerOptionsAfterMerge (some (some parsed)) =
      match getCompilerOptions parsed with
      | none => canonicalCompilerOptions
      | some co => spreadMerge (optSpreadFields co) canonicalCompilerOptions := rfl
  rw [hred]
  cases h : getCompilerOptions parsed with
  | none => exact hk
  | some co =>
    show lookupField (spreadMerge (optSpreadFields co) canonicalCompilerOptions) k = some v
    rw [lookupField_spreadMerge, hk]
    rfl

/-!
Embedding notes: The claims
-/

/-- C1: for every pre-existing tsconfig whose text parses, one run of
setupTsConfig produces a compilerOptions map in which every canonical key
(module, target, outDir, rootDir, strict, esModuleInterop,
moduleResolution) equals the canonical constant ("ESNext", "ES2020",
"dist", "src", true, true, "node"), regardless of the value that key held
in the pre-existing file. -/
theorem canonical_keys_always_canonical (parsed : Json) :
    lookupField (compilerOptionsAfterMerge (some (some parsed))) ("module")
      = some (Json.str ("ESNext")) ∧
    lookupField (compilerOptionsAfterMerge (some (some parsed))) ("target")
      = some (Json.str ("ES2020")) ∧
    lookupField (compilerOptionsAfterMerge (some (some parsed))) ("outDir")
      = some (Json.str ("dist")) ∧
    lookupField (compilerOptionsAfterMerge (some (some parsed))) ("rootDir")
      = some (Json.str ("src")) ∧
    lookupField (compilerOptionsAfterMerge (some (some parsed))) ("strict")
      = some (Json.bool true) ∧
    lookupField (compilerOptionsAfterMerge (some (some parsed))) ("esModuleInterop")
      = some (Json.bool true) ∧
    lookupField (compilerOptionsAfterMerge (some (some parsed))) ("moduleResolution")
      = some (Json.str ("node")) :=
  ⟨mergeKeepsCanonical parsed _ _ rfl, mergeKeepsCanonical parsed _ _ rfl,
   mergeKeepsCanonical parsed _ _ rfl, mergeKeepsCanonical parsed _ _ rfl,
   mergeKeepsCanonical parsed _ _ rfl, mergeKeepsCanonical parsed _ _ rfl,
   mergeKeepsCanonical parsed _ _ rfl⟩

/-- C2: every compilerOptions key of the parsed file that is absent from
the canonical set resolves, in the merged output, to exactly the parsed
file's value — no non-conflicting pre-existing option is dropped or
altered. -/
theorem noncanonical_keys_preserved (parsed : Json) (fs : List (String × Json)) (k : String)
    (hco : getCompilerOptions parsed = some (some (Json.obj fs)))
    (hcanon : lookupField canonicalCompilerOptions k = none) :
    lookupField (compilerOptionsAfterMerge (some (some parsed))) k = lookupField fs k := by
  have hred : compilerOptionsAfterMerge (some (some parsed)) =
      match getCompilerOptions parsed with
      | none => canonicalCompilerOptions
      | some co => spreadMerge (optSpreadFields co) canonicalCompilerOptions := rfl
  rw [hred, hco]
  show lookupField (spreadMerge (optSpreadFields (some (Json.obj fs))) canonicalCompilerOptions) k
    = lookupField fs k
  rw [lookupField_spreadMerge, hcanon]
  rfl

/-- Witness for C2 at a concrete file: a parsed tsconfig carrying the
non-canonical option lib = "ES2015" keeps it unchanged in the merge. -/
theorem noncanonical_keys_preserved_witness :
    getCompilerOptions
        (Json.obj [(("compilerOptions"), Json.obj [(("lib"), Json.str ("ES2015"))])])
      = some (some (Json.obj [(("lib"), Json.str ("ES2015"))])) ∧
    lookupField canonicalCompilerOptions ("lib") = none ∧
    lookupField
        (compilerOptionsAfterMerge (some (some
          (Json.obj [(("compilerOptions"), Json.obj [(("lib"), Json.str ("ES2015"))])]))))
        ("lib")
      = lookupField [(("lib"), Json.str ("ES2015"))] ("lib") :=
  ⟨rfl, rfl, noncanonical_keys_preserved _ _ _ rfl rfl⟩

/-- C3: when the pre-existing tsconfig text fails to parse, setupTsConfig
emits a warning, writes the canonical-defaults-only config, and the run
continues to the subsequent steps (git init is still executed). -/
theorem parse_failure_warns_and_defaults :
    setupTsConfigActs (some none) =
      [logWarn ("Failed to parse existing tsconfig.json, using default."),
       Action.writeJson ("tsconfig.json") defaultTsconfig,
       logSuccess ("tsconfig.json ready")] ∧
    tsconfigMerged (some none) = defaultTsconfig ∧
    ∀ name answer port pkgPre,
      Action.exec ("git init") true ∈
        (runWorkflow (fun _ => false) name answer port (some none) pkgPre).1 := by
  refine ⟨rfl, rfl, ?_⟩
  intro name answer port pkgPre
  simp [runWorkflow, workflowSteps, runSteps, setupTsConfigActs, createSrcMainActs,
    tsconfigWarned]

/-- C4: blank answers to all three prompts (after trimming) yield the
documented defaults: name "my-app", non-interactive npm init, port 3000. -/
theorem blank_prompts_give_defaults (name answer port : String)
    (hn : jsTrimString name = "") (ha : jsTrimString answer = "")
    (hp : jsTrimString port = "") :
    collectParams name answer port = ⟨("my-app"), true, PortVal.num 3000⟩ := by
  unfold collectParams projectNameOf useDefaultOf portOf jsOrStr
  rw [hn, ha, hp]
  rfl

/-- Witness for C4 at concrete whitespace-only answers. -/
theorem blank_prompts_give_defaults_witness :
    jsTrimString (" ") = "" ∧ jsTrimString ("") = "" ∧ jsTrimString ("  ") = "" ∧
    collectParams (" ") ("") ("  ") = ⟨("my-app"), true, PortVal.num 3000⟩ :=
  ⟨by decide, by decide, by decide,
   blank_prompts_give_defaults _ _ _ (by decide) (by decide) (by decide)⟩

/-- C10: npm init runs interactively exactly when the trimmed, lowercased
answer is "n"; any other answer — "no", "NO", arbitrary text, or blank —
selects the non-interactive `npm init -y`. -/
theorem interactive_iff_answer_n :
    (∀ answer : String,
      initNpmCommand (useDefaultOf answer) = ("npm init") ↔
        jsToLower (jsTrimString answer) = ("n")) ∧
    initNpmCommand (useDefaultOf ("no")) = ("npm init -y") ∧
    initNpmCommand (useDefaultOf ("NO")) = ("npm init -y") ∧
    initNpmCommand (useDefaultOf ("")) = ("npm init -y") := by
  refine ⟨?_, by decide, by decide, by decide⟩
  intro answer
  unfold initNpmCommand useDefaultOf
  by_cases h : jsToLower (jsTrimString answer) = "n" <;> simp [h]

/-- Witness for C10: the answer " N " — whitespace and upper case — picks
the interactive npm init. -/
theorem interactive_iff_answer_n_witness :
    initNpmCommand (useDefaultOf (" N ")) = ("npm init") :=
  (interactive_iff_answer_n.1 (" N ")).mpr (by decide)

/-- The expected src/main.ts text for the collected port "8080", spelled
out in full: the fallback-port literal is 8080 and everything else is the
fixed template. -/
def expectedMain8080 : String :=
  "\nimport express from \"express\";\nimport type \x7b Request, Response \x7d from \"express\";\n\nconst app = express();\nconst port = process.env.PORT || 8080;\n\napp.get(\"/\", (req: Request, res: Response) => \x7b\n    res.send(\"Hello, TypeScript + Express!\");\n\x7d);\n\napp.listen(port, () => \x7b\n    console.log(`Server running at http://localhost:$\x7bport\x7d`);\n\x7d);\n"

/-- Under the spec's ManifestDocument shape, the value the scripts
mutation starts from is the object built by `pkg.scripts || \x7b\x7d`. -/
theorem scripts_base (fs : List (String × Json)) (h : scriptsMaplike fs = true) :
    jsOr (lookupField fs ("scripts")) (Json.obj []) = Json.obj (origScripts fs) := by
  unfold scriptsMaplike at h
  unfold origScripts jsOr
  cases hl : lookupField fs ("scripts") with
  | none => rfl
  | some v =>
    rw [hl] at h
    cases v with
    | null => simp [jsFalsy]
    | bool b => cases b <;> simp_all [jsFalsy]
    | num n => simp_all [jsFalsy]
    | str s => simp_all [jsFalsy]
    | arr xs => simp [jsFalsy] at h
    | obj sfs => simp [jsFalsy]

/-- C5: addPackageScripts sets scripts.dev = "nodemon", scripts.build =
"tsc" and scripts.start = "node dist/main.js", overwriting pre-existing
entries of those names; every other script entry and every non-scripts
top-level key of the manifest survives unchanged. -/
theorem scripts_injection_overwrite_safe (fs : List (String × Json))
    (h : scriptsMaplike fs = true) :
    ∃ fs', addScriptsTo (Json.obj fs) = some (Json.obj fs') ∧
      (∃ sfs', lookupField fs' ("scripts") = some (Json.obj sfs') ∧
        lookupField sfs' ("dev") = some (Json.str ("nodemon")) ∧
        lookupField sfs' ("build") = some (Json.str ("tsc")) ∧
        lookupField sfs' ("start") = some (Json.str ("node dist/main.js")) ∧
        ∀ k, k ≠ ("dev") → k ≠ ("build") → k ≠ ("start") →
          lookupField sfs' k = lookupField (origScripts fs) k) ∧
      ∀ k, k ≠ ("scripts") → lookupField fs' k = lookupField fs k := by
  have hbase := scripts_base fs h
  have hred : addScriptsTo (Json.obj fs) =
      match jsOr (lookupField fs ("scripts")) (Json.obj []) with
      | .obj sfs =>
        some (Json.obj (setField fs ("scripts") (Json.obj
          (setField (setField (setField sfs ("dev") (Json.str ("nodemon")))
            ("build") (Json.str ("tsc"))) ("start") (Json.str ("node dist/main.js"))))))
      | .arr xs => some (Json.obj (setField fs ("scripts") (Json.arr xs)))
      | _ => none := rfl
  rw [hbase] at hred
  refine ⟨_, hred, ⟨_, lookupField_setField_self _ _ _, ?_, ?_, ?_, ?_⟩, ?_⟩
  · rw [lookupField_setField_other _ _ _ _ (by decide),
      lookupField_setField_other _ _ _ _ (by decide), lookupField_setField_self]
  · rw [lookupField_setField_other _ _ _ _ (by decide), lookupField_setField_self]
  · exact lookupField_setField_self _ _ _
  · intro k hd hb hs
    rw [lookupField_setField_other _ _ _ _ hs, lookupField_setField_other _ _ _ _ hb,
      lookupField_setField_other _ _ _ _ hd]
  · intro k hk
    exact lookupField_setField_other _ _ _ _ hk

/-- Witness for C5: a manifest with a name field and a pre-existing
unrelated script lint = "eslint .". -/
theorem scripts_injection_overwrite_safe_witness :
    scriptsMaplike
        [(("name"), Json.str ("demo")),
         (("scripts"), Json.obj [(("lint"), Json.str ("eslint ."))])] = true ∧
    (∃ fs', addScriptsTo (Json.obj
        [(("name"), Json.str ("demo")),
         (("scripts"), Json.obj [(("lint"), Json.str ("eslint ."))])]) = some (Json.obj fs') ∧
      (∃ sfs', lookupField fs' ("scripts") = some (Json.obj sfs') ∧
        lookupField sfs' ("dev") = some (Json.str ("nodemon")) ∧
        lookupField sfs' ("build") = some (Json.str ("tsc")) ∧
        lookupField sfs' ("start") = some (Json.str ("node dist/main.js")) ∧
        ∀ k, k ≠ ("dev") → k ≠ ("build") → k ≠ ("start") →
          lookupField sfs' k = lookupField (origScripts
            [(("name"), Json.str ("demo")),
             (("scripts"), Json.obj [(("lint"), Json.str ("eslint ."))])]) k) ∧
      ∀ k, k ≠ ("scripts") → lookupField fs' k = lookupField
        [(("name"), Json.str ("demo")),
         (("scripts"), Json.obj [(("lint"), Json.str ("eslint ."))])] k) :=
  ⟨rfl, scripts_injection_overwrite_safe _ rfl⟩

/-- Whether an action is an external command invocation. -/
def Action.isExec : Action → Bool
  | .exec _ _ => true
  | _ => false

/-- A step whose plain-action block contains no command invocation
(commands are only ever run through safeExec steps). -/
def stepNoExec : Step → Prop
  | .acts as => ∀ a ∈ as, Action.isExec a = false
  | _ => True

theorem setupTsConfigActs_noExec (pre : Option (Option Json)) :
    stepNoExec (Step.acts (setupTsConfigActs pre)) := by
  intro a ha
  unfold setupTsConfigActs at ha
  rcases List.mem_append.mp ha with h | h
  · split at h
    · simp only [List.mem_singleton] at h
      subst h; rfl
    · cases h
  · simp only [List.mem_cons, List.not_mem_nil, or_false] at h
    rcases h with rfl | rfl <;> rfl

theorem addPackageScriptsSteps_noExec (pkgPre : Option (Option Json)) :
    ∀ s ∈ addPackageScriptsSteps pkgPre, stepNoExec s := by
  intro s hs
  unfold addPackageScriptsSteps at hs
  rcases List.mem_append.mp hs with h | h
  · simp only [List.mem_singleton] at h
    subst h
    intro a ha
    rcases List.mem_append.mp ha with h | h
    · simp only [List.mem_singleton] at h
      subst h; rfl
    · cases pkgPre with
      | none => simp [readJson] at h
      | some o =>
        cases o with
        | none =>
          simp only [readJson, List.mem_singleton] at h
          subst h; rfl
        | some j => simp [readJson] at h
  · split at h
    · simp only [List.mem_singleton] at h
      subst h
      intro a ha
      simp only [List.mem_cons, List.not_mem_nil, or_false] at ha
      rcases ha with rfl | rfl <;> rfl
    · simp only [List.mem_singleton] at h
      subst h
      trivial

theorem workflowSteps_noExec (name answer port : String)
    (tsPre pkgPre : Option (Option Json)) :
    ∀ s ∈ workflowSteps name answer port tsPre pkgPre, stepNoExec s := by
  intro s hs
  simp only [workflowSteps, List.mem_append, List.mem_cons, List.not_mem_nil,
    or_false] at hs
  rcases hs with ((rfl | rfl | rfl | rfl | rfl | rfl | rfl | rfl | rfl | rfl | rfl | rfl |
    rfl | rfl | rfl) | h) | (rfl | rfl)
  · intro a ha
    simp only [List.mem_cons, List.not_mem_nil, or_false] at ha
    rcases ha with rfl | rfl | rfl <;> rfl
  · intro a ha
    simp only [List.mem_singleton] at ha
    subst ha; rfl
  · trivial
  · intro a ha
    simp only [List.mem_cons, List.not_mem_nil, or_false] at ha
    rcases ha with rfl | rfl <;> rfl
  · trivial
  · intro a ha
    simp only [List.mem_singleton] at ha
    subst ha; rfl
  · exact setupTsConfigActs_noExec tsPre
  · intro a ha
    simp only [createSrcMainActs, List.mem_cons, List.not_mem_nil, or_false] at ha
    rcases ha with rfl | rfl | rfl <;> rfl
  · intro a ha
    simp only [List.mem_singleton] at ha
    subst ha; rfl
  · trivial
  · intro a ha
    simp only [List.mem_cons, List.not_mem_nil, or_false] at ha
    rcases ha with rfl | rfl | rfl <;> rfl
  · intro a ha
    simp only [List.mem_singleton] at ha
    subst ha; rfl
  · trivial
  · trivial
  · intro a ha
    simp only [List.mem_singleton] at ha
    subst ha; rfl
  · exact addPackageScriptsSteps_noExec pkgPre s h
  · intro a ha
    simp only [List.mem_cons, List.not_mem_nil, or_false] at ha
    rcases ha with rfl | rfl | rfl <;> rfl
  · intro a ha
    simp only [List.mem_cons, List.not_mem_nil, or_false] at ha
    rcases ha with rfl | rfl | rfl <;> rfl

/-- Along any run, an executed command that fails is the last thing that
happens: the exit status is 1 and the trace ends with that command and
the log of its text. -/
theorem runSteps_exec_fail (failing : String → Bool) (L : List Step)
    (hL : ∀ s ∈ L, stepNoExec s) (c : String) (q : Bool)
    (hc : failing c = true)
    (hmem : Action.exec c q ∈ (runSteps failing L).1) :
    (runSteps failing L).2 = some 1 ∧
      ∃ pre, (runSteps failing L).1 =
        pre ++ [Action.exec c q, logError ("Command failed: " ++ c)] := by
  induction L with
  | nil => cases hmem
  | cons s rest ih =>
    cases s with
    | acts as =>
      have hnot : Action.exec c q ∉ as := fun hmem' => by
        have := hL _ (List.mem_cons_self _ _) _ hmem'
        simp [Action.isExec] at this
      simp only [runSteps] at hmem ⊢
      rcases List.mem_append.mp hmem with h1 | h2
      · exact absurd h1 hnot
      · obtain ⟨hexit, pre, hpre⟩ := ih (fun s hs => hL s (List.mem_cons_of_mem _ hs)) h2
        exact ⟨hexit, as ++ pre, by rw [hpre, List.append_assoc]⟩
    | cmd c' q' =>
      by_cases hf : failing c' = true
      · simp only [runSteps, if_pos hf] at hmem ⊢
        rcases List.mem_cons.mp hmem with heq | hmem'
        · injection heq with h1 h2
          subst h1; subst h2
          exact ⟨by trivial, [], by simp⟩
        · have heq := List.mem_singleton.mp hmem'
          simp [logError] at heq
      · simp only [runSteps, if_neg hf] at hmem ⊢
        rcases List.mem_cons.mp hmem with heq | hmem'
        · injection heq with h1 h2
          subst h1
          exact absurd hc hf
        · obtain ⟨hexit, pre, hpre⟩ := ih (fun s hs => hL s (List.mem_cons_of_mem _ hs)) hmem'
          exact ⟨hexit, Action.exec c' q' :: pre, by rw [hpre]; rfl⟩
    | crash => cases hmem

/-- C7: whenever an external command invocation of the run returns a
non-zero exit code, the tool logs the offending command text and the
whole process terminates with exit status 1, with nothing executed after
the failing command — no retry, no cleanup, no rollback action appears
after it in the trace. -/
theorem command_failure_is_fatal (failing : String → Bool) (name answer port : String)
    (tsPre pkgPre : Option (Option Json)) (c : String) (q : Bool)
    (hc : failing c = true)
    (hmem : Action.exec c q ∈ (runWorkflow failing name answer port tsPre pkgPre).1) :
    (runWorkflow failing name answer port tsPre pkgPre).2 = some 1 ∧
      ∃ pre, (runWorkflow failing name answer port tsPre pkgPre).1 =
        pre ++ [Action.exec c q, logError ("Command failed: " ++ c)] :=
  runSteps_exec_fail failing _ (workflowSteps_noExec name answer port tsPre pkgPre) c q hc hmem

/-- Witness for C7: a run in which `npm init -y` fails stops right after
logging it, with exit status 1. -/
theorem command_failure_is_fatal_witness :
    ((fun c => c == ("npm init -y")) ("npm init -y") = true) ∧
    Action.exec ("npm init -y") false ∈
      (runWorkflow (fun c => c == ("npm init -y")) ("demo") ("") ("") none none).1 ∧
    ((runWorkflow (fun c => c == ("npm init -y")) ("demo") ("") ("") none none).2 = some 1 ∧
      ∃ pre, (runWorkflow (fun c => c == ("npm init -y")) ("demo") ("") ("") none none).1 =
        pre ++ [Action.exec ("npm init -y") false,
                logError ("Command failed: " ++ ("npm init -y"))]) := by
  have hmem : Action.exec ("npm init -y") false ∈
      (runWorkflow (fun c => c == ("npm init -y")) ("demo") ("") ("") none none).1 :=
    List.Mem.tail _ (List.Mem.tail _ (List.Mem.tail _ (List.Mem.tail _ (List.Mem.head _))))
  exact ⟨rfl, hmem, command_failure_is_fatal _ _ _ _ _ _ _ _ rfl hmem⟩

theorem nodemon_notin_setupTsConfigActs (pre : Option (Option Json)) (j : Json) :
    Action.writeJson ("nodemon.json") j ∉ setupTsConfigActs pre := by
  intro h
  unfold setupTsConfigActs at h
  rcases List.mem_append.mp h with h | h
  · split at h
    · simp [logWarn] at h
    · cases h
  · simp [logSuccess] at h

/-- C6 as stated is false: in the event-driven workflow the entrypoint
file src/main.ts is written during the setup-tsconfig step, before the
install step runs, so a run whose `npm install express` exits non-zero
has already written src/main.ts when it halts with status 1. -/
theorem install_failure_after_entrypoint_counterexample :
    Action.write ("src/main.ts") (srcMainContent ("8080")) ∈
      (runWorkflow (fun c => c == ("npm install express"))
        ("demo") ("") ("8080") none none).1 ∧
    (runWorkflow (fun c => c == ("npm install express"))
      ("demo") ("") ("8080") none none).2 = some 1 := by
  constructor
  · exact List.Mem.tail _ (List.Mem.tail _ (List.Mem.tail _ (List.Mem.tail _
      (List.Mem.tail _ (List.Mem.tail _ (List.Mem.tail _ (List.Mem.tail _
      (List.Mem.tail _ (List.Mem.tail _ (List.Mem.tail _ (List.Mem.tail _
      (List.Mem.head _))))))))))))
  · rfl

/-- C6 amended: for every run in which an install command is the first
failing external command, the workflow halts before the watcher-config
file (nodemon.json) is written and the process exit status is 1; the
entrypoint file (src/main.ts), however, has already been written by the
earlier setup-tsconfig step. -/
theorem install_failure_halts_before_nodemon (failing : String → Bool)
    (name answer port : String) (tsPre pkgPre : Option (Option Json))
    (h1 : failing ("npm init -y") = false) (h2 : failing ("npm init") = false)
    (h3 : failing ("npm pkg set type=module") = false)
    (h4 : failing ("git init") = false)
    (h5 : failing ("npm install express") = true ∨
      (failing ("npm install express") = false ∧
        failing ("npm install -D typescript ts-node nodemon @types/node @types/express")
          = true)) :
    (runWorkflow failing name answer port tsPre pkgPre).2 = some 1 ∧
    (∃ content, Action.write ("src/main.ts") content ∈
      (runWorkflow failing name answer port tsPre pkgPre).1) ∧
    (∀ j, Action.writeJson ("nodemon.json") j ∉
      (runWorkflow failing name answer port tsPre pkgPre).1) := by
  have hinit : failing (initNpmCommand (useDefaultOf answer)) = false := by
    unfold initNpmCommand
    split <;> assumption
  rcases h5 with hfe | ⟨hfe, hfd⟩ <;>
    refine ⟨?_, ⟨srcMainContent (PortVal.render (portOf port)), ?_⟩, ?_⟩
  · simp [runWorkflow, workflowSteps, runSteps, hinit, h3, h4, hfe]
  · simp [runWorkflow, workflowSteps, runSteps, hinit, h3, h4, hfe, createSrcMainActs]
  · intro j hj
    simp [runWorkflow, workflowSteps, runSteps, hinit, h3, h4, hfe, createSrcMainActs,
      nodemon_notin_setupTsConfigActs, logStep, logSuccess, logError] at hj
  · simp [runWorkflow, workflowSteps, runSteps, hinit, h3, h4, hfe, hfd]
  · simp [runWorkflow, workflowSteps, runSteps, hinit, h3, h4, hfe, hfd, createSrcMainActs]
  · intro j hj
    simp [runWorkflow, workflowSteps, runSteps, hinit, h3, h4, hfe, hfd, createSrcMainActs,
      nodemon_notin_setupTsConfigActs, logStep, logSuccess, logError] at hj

/-- Witness for the amended C6 at a concrete failing express install. -/
theorem install_failure_halts_before_nodemon_witness :
    ((fun c => c == ("npm install express")) ("npm init -y") = false) ∧
    ((fun c => c == ("npm install express")) ("npm init") = false) ∧
    ((fun c => c == ("npm install express")) ("npm pkg set type=module") = false) ∧
    ((fun c => c == ("npm install express")) ("git init") = false) ∧
    ((fun c => c == ("npm install express")) ("npm install express") = true) ∧
    ((runWorkflow (fun c => c == ("npm install express"))
        ("demo") ("") ("8080") none none).2 = some 1 ∧
      (∃ content, Action.write ("src/main.ts") content ∈
        (runWorkflow (fun c => c == ("npm install express"))
          ("demo") ("") ("8080") none none).1) ∧
      (∀ j, Action.writeJson ("nodemon.json") j ∉
        (runWorkflow (fun c => c == ("npm install express"))
          ("demo") ("") ("8080") none none).1)) :=
  ⟨rfl, rfl, rfl, rfl, rfl,
    install_failure_halts_before_nodemon _ _ _ _ _ _ rfl rfl rfl rfl (Or.inl rfl)⟩

theorem hasPair_tail (a b c : Char) (cs : List Char)
    (h : hasPair a b (c :: cs) = false) : hasPair a b cs = false := by
  cases cs with
  | nil => rfl
  | cons c' cs' =>
    simp only [hasPair, Bool.or_eq_false_iff] at h
    exact h.2

theorem lineScan_no_pair (l : List Char) :
    (hasPair '/' '/' l = false → lineScan .normal l = l) ∧
    (hasPair '/' '/' ('/' :: l) = false → lineScan .seenSlash l = '/' :: l) := by
  induction l with
  | nil => exact ⟨fun _ => rfl, fun _ => rfl⟩
  | cons c cs ih =>
    constructor
    · intro h
      simp only [lineScan]
      by_cases hc : c = '/'
      · rw [if_pos hc]
        subst hc
        exact ih.2 h
      · rw [if_neg hc, ih.1 (hasPair_tail _ _ _ _ h)]
    · intro h
      simp only [hasPair, Bool.or_eq_false_iff, Bool.and_eq_false_iff, beq_eq_false_iff_ne,
        ne_eq] at h
      have hc : ¬ c = '/' := by
        rcases h.1 with h1 | h1
        · exact absurd trivial h1
        · exact h1
      simp only [lineScan]
      rw [if_neg hc, ih.1 (hasPair_tail _ _ _ _ h.2)]

theorem blockScan_no_pair (l : List Char) :
    (hasPair '/' '*' l = false → blockScan .normal l = l) ∧
    (hasPair '/' '*' ('/' :: l) = false → blockScan .seenSlash l = '/' :: l) := by
  induction l with
  | nil => exact ⟨fun _ => rfl, fun _ => rfl⟩
  | cons c cs ih =>
    constructor
    · intro h
      simp only [blockScan]
      by_cases hc : c = '/'
      · rw [if_pos hc]
        subst hc
        exact ih.2 h
      · rw [if_neg hc, ih.1 (hasPair_tail _ _ _ _ h)]
    · intro h
      simp only [hasPair, Bool.or_eq_false_iff, Bool.and_eq_false_iff, beq_eq_false_iff_ne,
        ne_eq] at h
      have hc : ¬ c = '*' := by
        rcases h.1 with h1 | h1
        · exact absurd trivial h1
        · exact h1
      simp only [blockScan]
      rw [if_neg hc]
      by_cases hs : c = '/'
      · rw [if_pos hs]
        subst hs
        rw [ih.2 (by simpa using h.2)]
      · rw [if_neg hs, ih.1 (hasPair_tail _ _ _ _ h.2)]

theorem stripCommasGo_no_match (close : Char) (hclose : jsWs close = false) (l : List Char) :
    (hasTrailingComma close l = false → stripCommasGo close none l = l) ∧
    (∀ buf, (∀ w ∈ buf, jsWs w = true) → startsWsClose close l = false →
      hasTrailingComma close l = false →
      stripCommasGo close (some buf) l = ',' :: (buf.reverse ++ l)) := by
  induction l with
  | nil =>
    refine ⟨fun _ => rfl, fun buf _ _ _ => ?_⟩
    show ',' :: buf.reverse = ',' :: (buf.reverse ++ [])
    rw [List.append_nil]
  | cons c cs ih =>
    have htail : hasTrailingComma close (c :: cs) = false →
        hasTrailingComma close cs = false := by
      intro h
      simp only [hasTrailingComma, Bool.or_eq_false_iff] at h
      exact h.2
    have hhead : hasTrailingComma close (c :: cs) = false → c = ',' →
        startsWsClose close cs = false := by
      intro h hc
      subst hc
      simp only [hasTrailingComma, Bool.or_eq_false_iff, Bool.and_eq_false_iff,
        beq_eq_false_iff_ne, ne_eq] at h
      rcases h.1 with h1 | h1
      · exact absurd trivial h1
      · exact h1
    constructor
    · intro ht
      simp only [stripCommasGo]
      by_cases hc : c = ','
      · rw [if_pos hc]
        rw [ih.2 [] (by intro w hw; cases hw) (hhead ht hc) (htail ht)]
        rw [hc]
        rfl
      · rw [if_neg hc, ih.1 (htail ht)]
    · intro buf hb hs ht
      have hcnotclose : ¬ c = close := by
        intro hc
        subst hc
        simp [startsWsClose] at hs
      simp only [stripCommasGo]
      rw [if_neg hcnotclose]
      by_cases hw : jsWs c = true
      · rw [if_pos hw]
        have hs' : startsWsClose close cs = false := by
          simp only [startsWsClose, Bool.or_eq_false_iff, Bool.and_eq_false_iff] at hs
          rcases hs.2 with h1 | h1
          · exact absurd hw (by simp [h1])
          · exact h1
        rw [ih.2 (c :: buf) (by
            intro w hwm
            rcases List.mem_cons.mp hwm with rfl | hwm
            · exact hw
            · exact hb w hwm) hs' (htail ht)]
        simp
      · rw [if_neg hw]
        by_cases hc : c = ','
        · rw [if_pos hc]
          rw [ih.2 [] (by intro w hwm; cases hwm) (hhead ht hc) (htail ht)]
          rw [hc]
          simp
        · rw [if_neg hc, ih.1 (htail ht)]

/-- C8 as stated is false: the comment-stripping passes act on raw text
with no notion of string literals, so a plain JSON file (no comments at
all) whose string value contains `//` — here a URL — is truncated from
the `//` to the end of the line, altering non-comment content and leaving
text that no longer parses. -/
theorem url_string_truncated_counterexample :
    removeJsonComments ("\x7b\"a\": \"http://x\"\x7d") = ("\x7b\"a\": \"http:") ∧
    removeJsonComments ("\x7b\"a\": \"http://x\"\x7d") ≠ ("\x7b\"a\": \"http://x\"\x7d") := by
  constructor
  · rfl
  · decide

/-- A JSON-with-comments sample: a line comment, a block comment and
trailing commas before both a bracket and a brace. -/
def jsoncSample : String :=
  "\x7b\n  // name\n  \"a\": \"b\", /* note */\n  \"c\": [1, 2,],\n\x7d"

/-- What removeJsonComments makes of the sample: comments gone (line
structure kept), trailing commas gone. -/
def jsoncSampleStripped : String :=
  "\x7b\n  \n  \"a\": \"b\", \n  \"c\": [1, 2]\x7d"

/-- C8 amended: removeJsonComments removes line comments, block comments
and trailing commas purely textually; on a JSON-with-comments sample it
produces the comment-free text, and any input containing none of the
textual patterns `//`, `/*`, comma-whitespace-brace or
comma-whitespace-bracket — anywhere, string values included — is returned
unchanged except for trimming.  (Inputs whose string values do contain
such patterns are altered, as the counterexample shows.) -/
theorem strip_textual_and_id_without_patterns :
    (∀ s : String,
      hasPair '/' '/' s.data = false →
      hasPair '/' '*' s.data = false →
      hasTrailingComma '\x7d' s.data = false →
      hasTrailingComma ']' s.data = false →
      removeJsonComments s = jsTrimString s) ∧
    removeJsonComments jsoncSample = jsoncSampleStripped := by
  constructor
  · intro s h1 h2 h3 h4
    unfold removeJsonComments jsTrimString stripLineComments stripBlockComments
      stripTrailingCommas
    rw [(lineScan_no_pair _).1 h1, (blockScan_no_pair _).1 h2,
      (stripCommasGo_no_match '\x7d' rfl _).1 h3,
      (stripCommasGo_no_match ']' rfl _).1 h4]
  · rfl

/-- Witness for the amended C8 at a concrete pattern-free input. -/
theorem strip_textual_and_id_without_patterns_witness :
    hasPair '/' '/' ("\x7b\"a\": 1\x7d").data = false ∧
    hasPair '/' '*' ("\x7b\"a\": 1\x7d").data = false ∧
    hasTrailingComma '\x7d' ("\x7b\"a\": 1\x7d").data = false ∧
    hasTrailingComma ']' ("\x7b\"a\": 1\x7d").data = false ∧
    removeJsonComments ("\x7b\"a\": 1\x7d") = jsTrimString ("\x7b\"a\": 1\x7d") :=
  ⟨by decide, by decide, by decide, by decide,
   strip_textual_and_id_without_patterns.1 _ (by decide) (by decide) (by decide) (by decide)⟩

/-- C9: createSrcMain creates the src directory and writes exactly one
file whose content is the fixed template with the port substituted at the
fallback-port expression and nowhere else (the prefix and suffix around
the substitution are fixed constants); for collected port "8080" the
generated file equals the expected text byte for byte. -/
theorem entrypoint_template_substitution :
    (∀ p : PortVal, createSrcMainActs p =
      [Action.mkdir ("src"),
       Action.write ("src/main.ts") (srcMainPre ++ p.render ++ srcMainPost),
       logSuccess ("src/main.ts created")]) ∧
    createSrcMainActs (portOf ("8080")) =
      [Action.mkdir ("src"),
       Action.write ("src/main.ts") expectedMain8080,
       logSuccess ("src/main.ts created")] :=
  ⟨fun _ => rfl, rfl⟩

end TsExpressGen
